import Mathlib

/-!
# IntelliDoc-AI: verification of the chunk-and-combine pipeline and document store

A shallow embedding of the core logic of `gemini_service.py` (text chunking,
summarization pipeline, question-answering pipeline) and `database.py`
(document store), together with proofs of the specification's claims.

Python strings are modelled as lists of characters (`PyStr`), so that
character counts and word counts are directly expressible.  The external
generative-text service is modelled as an oracle mapping each Gateway call
index and transport attempt index to either a transport failure or a
response text (`none` models a null `resp.text`).  The storage backend's
connectivity is modelled as a per-operation oracle saying which connection
attempts fail.
-/

set_option autoImplicit false

namespace IntelliDoc

/-- A Python string, modelled as its list of characters. -/
abbrev PyStr := List Char

/-- Embed a Lean string literal as a `PyStr`. -/
def lit (s : String) : PyStr := s.data

/-- The ASCII whitespace characters recognised by Python's `str.split()` /
`str.strip()` (space, tab, newline, carriage return, vertical tab, form
feed).  The claims do not depend on the non-ASCII whitespace cases. -/
def isPySpace (c : Char) : Bool :=
  c = ' ' || c = '\t' || c = '\n' || c = '\r' || c = '\x0b' || c = '\x0c'

/-- Python `str.split()` with no separator: split on runs of whitespace,
discarding empty fragments (so leading/trailing/repeated whitespace
produces no empty words). -/
def splitWs (s : PyStr) : List PyStr :=
  (s.splitOnP isPySpace).filter (fun w => !w.isEmpty)

/-- Python `str.strip()`: remove leading and trailing whitespace. -/
def pyStrip (s : PyStr) : PyStr :=
  ((s.dropWhile isPySpace).reverse.dropWhile isPySpace).reverse

/-- Python `sep.join(parts)`. -/
def pyJoin (sep : PyStr) : List PyStr → PyStr
  | [] => []
  | [w] => w
  | w :: ws => w ++ sep ++ pyJoin sep ws

/-- Grouping of a list into consecutive runs of `m` elements, with explicit
fuel so that the definition is structural (the fuel is always at least the
list length at call sites, so it never runs out).  This is the slicing
`[words[i:i+m] for i in range(0, len(words), m)]` for `m ≥ 1`. -/
def chunksOfAux (m : Nat) : Nat → List PyStr → List (List PyStr)
  | _, [] => []
  | 0, _ :: _ => []
  | fuel + 1, w :: ws => ((w :: ws).take m) :: chunksOfAux m fuel ((w :: ws).drop m)

/-- Consecutive `m`-element slices of a list (`m ≥ 1`). -/
def chunksOf (m : Nat) (l : List PyStr) : List (List PyStr) :=
  chunksOfAux m l.length l

/-- `chunk_text` for a positive `max_words`: split into words, slice the word
list into runs of `max_words`, and space-join each slice.
Source: `gemini_service.py`, `chunk_text` (body of the list comprehension). -/
def chunk_text_pos (text : PyStr) (max_words : Nat) : List PyStr :=
  (chunksOf max_words (splitWs text)).map (pyJoin [' '])

/-- Errors raised by the embedded Python code. -/
inductive PyErr where
  /-- `ValueError: range() arg 3 must not be zero` (from `range(0, n, 0)`). -/
  | valueError : PyErr
  /-- `KeyError` from indexing a dict with a missing key. -/
  | keyError (key : PyStr) : PyErr
  /-- A transport exception from the external service, re-raised after the
  retry loop is exhausted. -/
  | transport : PyErr
  deriving DecidableEq, Repr

/-- `chunk_text(text, max_words)` from `gemini_service.py`:

```python
def chunk_text(text: str, max_words: int = 1200) -> list[str]:
    words = text.split()
    return [' '.join(words[i:i + max_words]) for i in range(0, len(words), max_words)]
```

`max_words` is a Python `int`, so it is modelled as `Int`.  `range` with a
zero step raises `ValueError`; `range(0, n, k)` with `k < 0` and `n ≥ 0` is
empty, so a negative `max_words` yields the empty list. -/
def chunk_text (text : PyStr) (max_words : Int) : Except PyErr (List PyStr) :=
  if max_words = 0 then .error .valueError
  else if max_words < 0 then .ok []
  else .ok (chunk_text_pos text max_words.toNat)

/-! ## The Gemini service (`gemini_service.py`)

The external service is modelled by an oracle
`oracle : Nat → Nat → Except Unit (Option PyStr)`: `oracle i a` is the
outcome of transport attempt `a` of the `i`-th Gateway call of the run —
either a transport exception (`.error ()`) or a response whose `.text`
field is `none` (null) or `some t`. -/

/-- The result of one response from the service: `resp.text`, where `none`
models a null text field. -/
abbrev RespText := Option PyStr

/-- Python truthiness of `resp.text` (`if resp.text:`): false for `None`
and for the empty string. -/
def pyTruthy : RespText → Bool
  | none => false
  | some t => !t.isEmpty

/-- `(resp.text or "")`: the text if truthy, else the empty string.  For
strings this coincides with replacing `None` by `""`. -/
def orEmpty (t : RespText) : PyStr := t.getD []

/-- `_call_gemini` from `gemini_service.py`: try the call up to
`MAX_RETRIES = 3` times, sleeping between transport failures, and re-raise
the last error after the third failure.  Returns the number of transport
attempts made together with the outcome. -/
def call_gemini (attempts : Nat → Except Unit RespText) : Nat × Except Unit RespText :=
  match attempts 0 with
  | .ok t => (1, .ok t)
  | .error _ =>
    match attempts 1 with
    | .ok t => (2, .ok t)
    | .error _ =>
      match attempts 2 with
      | .ok t => (3, .ok t)
      | .error e => (3, .error e)

/-- One entry of the `chunk_configs` dict in `generate_summary`. -/
structure Config where
  max_words : Nat
  instruction : PyStr
  deriving DecidableEq

/-- The `"medium"` entry of `chunk_configs`. -/
def mediumConfig : Config := ⟨1200, lit "Write a concise paragraph summary"⟩

/-- The `chunk_configs` dict of `generate_summary`, as a partial lookup. -/
def chunk_configs (length : PyStr) : Option Config :=
  if length = lit "short" then some ⟨1500, lit "Write a brief 2–3 sentence summary"⟩
  else if length = lit "medium" then some mediumConfig
  else if length = lit "long" then some ⟨1000, lit "Write a detailed 2–3 paragraph summary"⟩
  else none

/-- The `final_instructions` dict of `generate_summary`, as a partial
lookup (`final_instructions[length]` raises `KeyError` when `length` is
not one of the three keys). -/
def final_instructions (length : PyStr) : Option PyStr :=
  if length = lit "short" then
    some (lit "Combine these section summaries into a brief 2–3 sentence overview.")
  else if length = lit "medium" then
    some (lit "Combine these section summaries into a comprehensive 1–2 paragraph summary.")
  else if length = lit "long" then
    some (lit "Combine these section summaries into a detailed 3–4 paragraph summary covering all key points")
  else none

/-- The per-chunk map prompt `f"Summarize this section concisely:\n\n{chunk}"`. -/
def mapPrompt (chunk : PyStr) : PyStr :=
  lit "Summarize this section concisely:\n\n" ++ chunk

/-- The single-chunk prompt `f"{config['instruction']} of this document:\n\n{chunks[0]}"`. -/
def gsPrompt1 (config : Config) (chunk : PyStr) : PyStr :=
  config.instruction ++ lit " of this document:\n\n" ++ chunk

/-- The map loop of `generate_summary`: one Gateway call per chunk (call
index `i` counting from the given start), collecting the stripped response
of each truthy-text call, in chunk order.  A transport failure (after
`call_gemini`'s retries) aborts the loop by raising.  Returns the prompts
issued and the collected partial summaries. -/
def mapPhase (oracle : Nat → Nat → Except Unit RespText) :
    List PyStr → Nat → Except Unit (List PyStr × List PyStr)
  | [], _ => .ok ([], [])
  | c :: cs, i =>
    match call_gemini (oracle i) with
    | (_, .error e) => .error e
    | (_, .ok t) =>
      match mapPhase oracle cs (i + 1) with
      | .error e => .error e
      | .ok (ps, ss) =>
        .ok (mapPrompt c :: ps, (if pyTruthy t then [pyStrip (orEmpty t)] else []) ++ ss)

/-- `generate_summary(text, length)` from `gemini_service.py`.  Returns the
ordered list of Gateway-call prompts together with the returned summary,
or the raised error.  The `chunk_configs` lookup uses
`.get(length, chunk_configs["medium"])`; the `final_instructions` lookup is
a plain dict indexing, hence `KeyError` on an unrecognized `length`.  The
chunk sizes are the positive literals of `chunk_configs`, so `chunk_text`
is in its `.ok` branch (`chunk_text_pos`). -/
def generate_summary (oracle : Nat → Nat → Except Unit RespText)
    (text length : PyStr) : Except PyErr (List PyStr × PyStr) :=
  let config := (chunk_configs length).getD mediumConfig
  let chunks := chunk_text_pos text config.max_words
  if chunks.length = 1 then
    match call_gemini (oracle 0) with
    | (_, .error _) => .error .transport
    | (_, .ok t) => .ok ([gsPrompt1 config (chunks.headD [])], pyStrip (orEmpty t))
  else
    match mapPhase oracle chunks 0 with
    | .error _ => .error .transport
    | .ok (prompts, summaries) =>
      match final_instructions length with
      | none => .error (.keyError length)
      | some instr =>
        match call_gemini (oracle chunks.length) with
        | (_, .error _) => .error .transport
        | (_, .ok t) =>
          .ok (prompts ++ [instr ++ lit ":\n\n" ++ pyJoin (lit "\n\n") summaries],
               pyStrip (orEmpty t))

/-- The Q&A grounding prompt of `answer_question` (same shape in both
branches, differing only in the document context placed in it). -/
def qaPrompt (context question : PyStr) : PyStr :=
  lit "Based on this document, answer the question briefly and accurately.\n\nDocument: "
    ++ context ++ lit "\n\nQuestion: " ++ question ++ lit "\n\nAnswer:"

/-- The multi-chunk document context of `answer_question`: join the first
three chunks with `"\n\n"` and, if the result exceeds 4000 characters,
keep its first 4000 characters and append a (one-character) ellipsis. -/
def qaRelevant (chunks : List PyStr) : PyStr :=
  let relevant := pyJoin (lit "\n\n") (chunks.take 3)
  if 4000 < relevant.length then relevant.take 4000 ++ lit "…" else relevant

/-- `answer_question(document_text, question)` from `gemini_service.py`.
Chunks the document into 1000-word chunks; a single chunk is used whole as
the context, otherwise the first three chunks are joined and truncated
(`qaRelevant`).  Exactly one Gateway call is made in either branch. -/
def answer_question (oracle : Nat → Nat → Except Unit RespText)
    (document_text question : PyStr) : Except PyErr (List PyStr × PyStr) :=
  let chunks := chunk_text_pos document_text 1000
  if chunks.length = 1 then
    match call_gemini (oracle 0) with
    | (_, .error _) => .error .transport
    | (_, .ok t) => .ok ([qaPrompt (chunks.headD []) question], pyStrip (orEmpty t))
  else
    match call_gemini (oracle 0) with
    | (_, .error _) => .error .transport
    | (_, .ok t) => .ok ([qaPrompt (qaRelevant chunks) question], pyStrip (orEmpty t))

/-- The partial summaries collected by the map loop, described directly as
a function of the per-call responses: for calls `k, k+1, …, k+n-1` in
order, the stripped text of each call whose text is truthy. -/
def collectFrom (resp : Nat → RespText) : Nat → Nat → List PyStr
  | _, 0 => []
  | k, n + 1 =>
    (if pyTruthy (resp k) then [pyStrip (orEmpty (resp k))] else [])
      ++ collectFrom resp (k + 1) n

/-! ## The document store (`database.py`)

The relational state is modelled explicitly: the `documents` and
`qa_interactions` tables as lists of rows (in insertion order, with
strictly increasing `created_at` stamps drawn from a logical clock), plus
the auto-increment counters.  Storage connectivity is a per-operation
oracle `failures : Nat → Bool` telling which connection attempts of the
operation raise; a successful attempt runs the operation's SQL to
completion (the transaction commits atomically). -/

/-- A row of the `documents` table. -/
structure DocRow where
  id : Nat
  user_id : String
  filename : String
  content : String
  summary : String
  file_size : Nat
  created_at : Nat
  deriving DecidableEq, Repr

/-- A row of the `qa_interactions` table. -/
structure QaRow where
  id : Nat
  document_id : Nat
  question : String
  answer : String
  created_at : Nat
  deriving DecidableEq, Repr

/-- The store state: both tables plus auto-increment counters and the
logical clock stamping `created_at`. -/
structure DBState where
  docs : List DocRow
  qas : List QaRow
  next_doc_id : Nat
  next_qa_id : Nat
  clock : Nat
  deriving DecidableEq, Repr

/-- The empty store. -/
def DBState.empty : DBState := ⟨[], [], 1, 1, 0⟩

/-- A bounded retry loop over connection attempts: `tryAttempts failures n r`
makes up to `r` further attempts starting at attempt index `n`, and returns
the total attempt index reached together with whether some attempt
succeeded.  This is the `for attempt in range(max_retries)` loop shape of
`database.py` (sleeps elided). -/
def tryAttempts (failures : Nat → Bool) : Nat → Nat → Nat × Bool
  | n, 0 => (n, false)
  | n, r + 1 => if failures n then tryAttempts failures (n + 1) r else (n + 1, true)

/-- `save_document(user_id, filename, content, summary, file_size)` from
`database.py`: up to `max_retries = 3` attempts; a successful attempt
inserts the row and returns its auto-assigned id; after 3 failed attempts
the last error is re-raised.  Returns (attempts made, outcome). -/
def save_document (failures : Nat → Bool) (s : DBState)
    (user_id filename content summary : String) (file_size : Nat) :
    Nat × Except Unit (Nat × DBState) :=
  match tryAttempts failures 0 3 with
  | (n, false) => (n, .error ())
  | (n, true) =>
    (n, .ok (s.next_doc_id,
      { docs := s.docs ++ [⟨s.next_doc_id, user_id, filename, content, summary,
                            file_size, s.clock⟩]
        qas := s.qas
        next_doc_id := s.next_doc_id + 1
        next_qa_id := s.next_qa_id
        clock := s.clock + 1 }))

/-- `save_qa_interaction(document_id, question, answer)` from `database.py`:
a single attempt; on failure the error is surfaced immediately (`raise`),
with no retry.  (SQLite enforces no foreign key here, so the insert
succeeds regardless of whether the document exists.) -/
def save_qa_interaction (failures : Nat → Bool) (s : DBState)
    (document_id : Nat) (question answer : String) : Nat × Except Unit DBState :=
  if failures 0 then (1, .error ())
  else
    (1, .ok { s with
      qas := s.qas ++ [⟨s.next_qa_id, document_id, question, answer, s.clock⟩]
      next_qa_id := s.next_qa_id + 1
      clock := s.clock + 1 })

/-- `get_user_documents(user_id)` from `database.py`: a single attempt; on
failure it returns the empty list (the exception is swallowed).  Rows are
returned `ORDER BY created_at DESC`; since the state keeps rows in
insertion order with strictly increasing `created_at`, that is the reverse
of the filtered list. -/
def get_user_documents (failures : Nat → Bool) (s : DBState) (user_id : String) :
    Nat × List DocRow :=
  if failures 0 then (1, [])
  else (1, (s.docs.filter (fun d => d.user_id = user_id)).reverse)

/-- `delete_document(document_id, user_id)` from `database.py`: a single
attempt; any exception yields `False` (swallowed).  Otherwise: verify
ownership with `SELECT id FROM documents WHERE id = :doc_id AND user_id =
:user_id`; if no row matches, return `False` unchanged; else delete the
document's `qa_interactions` rows, then the document, commit, return
`True`.  Returns (attempts made, returned bool, resulting state). -/
def delete_document (failures : Nat → Bool) (s : DBState)
    (document_id : Nat) (user_id : String) : Nat × Bool × DBState :=
  if failures 0 then (1, false, s)
  else if s.docs.any (fun d => d.id = document_id ∧ d.user_id = user_id) then
    (1, true,
      { s with
        qas := s.qas.filter (fun q => ¬ q.document_id = document_id)
        docs := s.docs.filter (fun d => ¬ d.id = document_id) })
  else (1, false, s)

instance {ε α : Type} [DecidableEq ε] [DecidableEq α] : DecidableEq (Except ε α) := by
  intro a b
  cases a <;> cases b
  case error.error e₁ e₂ =>
    exact if h : e₁ = e₂ then .isTrue (by rw [h]) else .isFalse (by intro hc; cases hc; exact h rfl)
  case ok.ok a₁ a₂ =>
    exact if h : a₁ = a₂ then .isTrue (by rw [h]) else .isFalse (by intro hc; cases hc; exact h rfl)
  case error.ok e a => exact .isFalse (by intro hc; cases hc)
  case ok.error a e => exact .isFalse (by intro hc; cases hc)

/-! ## Lemmas about `chunksOf` and `pyJoin` -/

theorem chunksOfAux_nil (m f : Nat) : chunksOfAux m f [] = [] := by
  cases f <;> rfl

theorem chunksOfAux_succ (m f : Nat) (w : PyStr) (ws : List PyStr) :
    chunksOfAux m (f + 1) (w :: ws) =
      ((w :: ws).take m) :: chunksOfAux m f ((w :: ws).drop m) := rfl

theorem chunksOfAux_eq_chunksOf (m : Nat) (hm : m ≠ 0) :
    ∀ (f : Nat) (l : List PyStr), l.length ≤ f → chunksOfAux m f l = chunksOf m l := by
  intro f
  induction f using Nat.strong_induction_on with
  | _ f ih =>
    intro l hl
    cases l with
    | nil => rw [chunksOfAux_nil]; rfl
    | cons w ws =>
      cases f with
      | zero => simp at hl
      | succ f =>
        show _ = chunksOfAux m (ws.length + 1) (w :: ws)
        rw [chunksOfAux_succ, chunksOfAux_succ]
        have hdrop : ((w :: ws).drop m).length ≤ ws.length := by
          rw [List.length_drop]; simp only [List.length_cons]; omega
        have hf : ((w :: ws).drop m).length ≤ f := by
          have : ws.length ≤ f := by simpa using Nat.lt_succ_iff.mp (Nat.lt_of_lt_of_le (Nat.lt_succ_self _) hl)
          omega
        rw [ih f (Nat.lt_succ_self f) _ hf,
            ih ws.length (Nat.lt_succ_of_le (by simpa using hl)) _ hdrop]

theorem chunksOf_nil (m : Nat) : chunksOf m [] = [] := rfl

theorem chunksOf_cons (m : Nat) (hm : m ≠ 0) (l : List PyStr) (hl : l ≠ []) :
    chunksOf m l = l.take m :: chunksOf m (l.drop m) := by
  cases l with
  | nil => exact absurd rfl hl
  | cons w ws =>
    show chunksOfAux m (ws.length + 1) (w :: ws) = _
    rw [chunksOfAux_succ]
    congr 1
    refine chunksOfAux_eq_chunksOf m hm ws.length _ ?_
    rw [List.length_drop]; simp only [List.length_cons]; omega

theorem chunksOf_ne_nil (m : Nat) (hm : m ≠ 0) (l : List PyStr) (hl : l ≠ []) :
    chunksOf m l ≠ [] := by
  rw [chunksOf_cons m hm l hl]; simp

theorem pyJoin_nil (s : PyStr) : pyJoin s [] = [] := rfl

theorem pyJoin_single (s w : PyStr) : pyJoin s [w] = w := rfl

theorem pyJoin_cons (s w : PyStr) (ws : List PyStr) (h : ws ≠ []) :
    pyJoin s (w :: ws) = w ++ s ++ pyJoin s ws := by
  cases ws with
  | nil => exact absurd rfl h
  | cons w2 ws2 => rfl

theorem pyJoin_append (s : PyStr) (l₁ l₂ : List PyStr) (h₁ : l₁ ≠ []) (h₂ : l₂ ≠ []) :
    pyJoin s (l₁ ++ l₂) = pyJoin s l₁ ++ s ++ pyJoin s l₂ := by
  induction l₁ with
  | nil => exact absurd rfl h₁
  | cons w ws ih =>
    cases ws with
    | nil => rw [List.cons_append, List.nil_append, pyJoin_cons s w l₂ h₂, pyJoin_single]
    | cons w2 ws2 =>
      rw [List.cons_append, pyJoin_cons s w ((w2 :: ws2) ++ l₂) (by simp),
          pyJoin_cons s w (w2 :: ws2) (by simp), ih (by simp)]
      simp [List.append_assoc]

/-- Re-joining the space-joined slices of a word list reproduces the joined
word list. -/
theorem pyJoin_map_chunksOf (s : PyStr) (m : Nat) (hm : m ≠ 0) (l : List PyStr) :
    pyJoin s ((chunksOf m l).map (pyJoin s)) = pyJoin s l := by
  suffices H : ∀ (n : Nat) (l : List PyStr), l.length ≤ n →
      pyJoin s ((chunksOf m l).map (pyJoin s)) = pyJoin s l from H l.length l le_rfl
  intro n
  induction n with
  | zero =>
    intro l hl
    rw [List.length_eq_zero.mp (Nat.le_zero.mp hl)]
    rfl
  | succ n ih =>
    intro l hl
    rcases eq_or_ne l [] with hnil | hne
    · rw [hnil]; rfl
    rw [chunksOf_cons m hm l hne, List.map_cons]
    rcases eq_or_ne (l.drop m) [] with hd | hd
    · rw [hd, chunksOf_nil, List.map_nil, pyJoin_single,
          List.take_of_length_le (List.drop_eq_nil_iff.mp hd)]
    · have htake : l.take m ≠ [] := by
        intro h
        have := congrArg List.length h
        rw [List.length_take] at this
        simp only [List.length_nil] at this
        rcases Nat.min_eq_zero_iff.mp this.symm.symm with h' | h'
        · exact hm h'
        · exact hne (List.length_eq_zero.mp h')
      have hrest : (chunksOf m (l.drop m)).map (pyJoin s) ≠ [] := by
        simp only [ne_eq, List.map_eq_nil_iff]
        exact chunksOf_ne_nil m hm _ hd
      have hlen : (l.drop m).length ≤ n := by
        rw [List.length_drop]
        have : 0 < l.length := List.length_pos.mpr hne
        omega
      rw [pyJoin_cons s _ _ hrest, ih (l.drop m) hlen]
      conv_rhs => rw [← List.take_append_drop m l]
      rw [pyJoin_append s _ _ htake hd]

/-- Every slice produced by `chunksOf` is nonempty, has at most `m`
elements, and draws its elements from the input list. -/
theorem mem_chunksOf (m : Nat) (hm : m ≠ 0) (l : List PyStr) :
    ∀ c ∈ chunksOf m l, c ≠ [] ∧ c.length ≤ m ∧ ∀ w ∈ c, w ∈ l := by
  suffices H : ∀ (n : Nat) (l : List PyStr), l.length ≤ n →
      ∀ c ∈ chunksOf m l, c ≠ [] ∧ c.length ≤ m ∧ ∀ w ∈ c, w ∈ l from
    H l.length l le_rfl
  intro n
  induction n with
  | zero =>
    intro l hl c hc
    rw [List.length_eq_zero.mp (Nat.le_zero.mp hl)] at hc
    simp [chunksOf_nil] at hc
  | succ n ih =>
    intro l hl c hc
    rcases eq_or_ne l [] with hnil | hne
    · rw [hnil] at hc; simp [chunksOf_nil] at hc
    rw [chunksOf_cons m hm l hne] at hc
    rcases List.mem_cons.mp hc with hc | hc
    · subst hc
      refine ⟨?_, ?_, fun w hw => List.take_subset m l hw⟩
      · intro h
        have := congrArg List.length h
        rw [List.length_take] at this
        simp only [List.length_nil] at this
        rcases Nat.min_eq_zero_iff.mp this.symm.symm with h' | h'
        · exact hm h'
        · exact hne (List.length_eq_zero.mp h')
      · rw [List.length_take]; exact Nat.min_le_left _ _
    · have hd : (l.drop m).length ≤ n := by
        rw [List.length_drop]
        have : 0 < l.length := List.length_pos.mpr hne
        omega
      obtain ⟨h1, h2, h3⟩ := ih (l.drop m) hd c hc
      exact ⟨h1, h2, fun w hw => List.drop_subset m l (h3 w hw)⟩

/-- Every slice of `chunksOf` except possibly the last has exactly `m`
elements. -/
theorem mem_dropLast_chunksOf (m : Nat) (hm : m ≠ 0) (l : List PyStr) :
    ∀ c ∈ (chunksOf m l).dropLast, c.length = m := by
  suffices H : ∀ (n : Nat) (l : List PyStr), l.length ≤ n →
      ∀ c ∈ (chunksOf m l).dropLast, c.length = m from H l.length l le_rfl
  intro n
  induction n with
  | zero =>
    intro l hl c hc
    rw [List.length_eq_zero.mp (Nat.le_zero.mp hl)] at hc
    simp [chunksOf_nil] at hc
  | succ n ih =>
    intro l hl c hc
    rcases eq_or_ne l [] with hnil | hne
    · rw [hnil] at hc; simp [chunksOf_nil] at hc
    rw [chunksOf_cons m hm l hne] at hc
    rcases eq_or_ne (l.drop m) [] with hd | hd
    · rw [hd, chunksOf_nil] at hc
      simp at hc
    · have hmlt : m < l.length := by
        by_contra h
        exact hd (List.drop_eq_nil_iff.mpr (Nat.le_of_not_lt h))
      rcases hrest : chunksOf m (l.drop m) with _ | ⟨r, rs⟩
      · exact absurd hrest (chunksOf_ne_nil m hm _ hd)
      rw [hrest] at hc
      rw [show (l.take m :: r :: rs).dropLast = l.take m :: (r :: rs).dropLast from rfl] at hc
      rcases List.mem_cons.mp hc with hc | hc
      · subst hc
        rw [List.length_take]
        omega
      · refine ih (l.drop m) ?_ c ?_
        · rw [List.length_drop]
          have : 0 < l.length := List.length_pos.mpr hne
          omega
        · rw [hrest]
          exact hc

/-! ## Lemmas about `splitWs` -/

/-- No fragment produced by `splitOnP` contains a separator. -/
theorem splitOnP_no_sep {α : Type} (p : α → Bool) :
    ∀ (l : List α), ∀ w ∈ l.splitOnP p, ∀ a ∈ w, p a = false := by
  intro l
  induction l with
  | nil =>
    intro w hw a ha
    rw [List.splitOnP_nil] at hw
    rw [List.mem_singleton.mp hw] at ha
    simp at ha
  | cons x xs ih =>
    intro w hw a ha
    rw [List.splitOnP_cons] at hw
    by_cases hx : p x
    · rw [if_pos hx] at hw
      rcases List.mem_cons.mp hw with h | h
      · rw [h] at ha; simp at ha
      · exact ih w h a ha
    · rw [if_neg hx] at hw
      rcases hs : xs.splitOnP p with _ | ⟨hd, tl⟩
      · exact absurd hs (List.splitOnP_ne_nil p xs)
      rw [hs] at hw
      rw [show (hd :: tl).modifyHead (List.cons x) = (x :: hd) :: tl from rfl] at hw
      rcases List.mem_cons.mp hw with h | h
      · rw [h] at ha
        rcases List.mem_cons.mp ha with h' | h'
        · rw [h']; exact Bool.eq_false_iff.mpr hx
        · exact ih hd (hs ▸ List.mem_cons_self hd tl) a h'
      · exact ih w (hs ▸ List.mem_cons_of_mem hd h) a ha

/-- Every word of `splitWs` is nonempty and contains no whitespace. -/
theorem mem_splitWs (s : PyStr) :
    ∀ w ∈ splitWs s, w ≠ [] ∧ ∀ c ∈ w, isPySpace c = false := by
  intro w hw
  obtain ⟨hmem, hkeep⟩ := List.mem_filter.mp hw
  refine ⟨?_, splitOnP_no_sep isPySpace s w hmem⟩
  intro h
  rw [h] at hkeep
  simp at hkeep

/-- `splitWs` is a left inverse of space-joining on lists of nonempty,
whitespace-free words: this is the split/join roundtrip behind the chunk
word counts. -/
theorem splitWs_pyJoin :
    ∀ (g : List PyStr), (∀ w ∈ g, w ≠ []) → (∀ w ∈ g, ∀ c ∈ w, isPySpace c = false) →
      splitWs (pyJoin [' '] g) = g := by
  intro g
  induction g with
  | nil => intro _ _; rfl
  | cons w ws ih =>
    intro hne hsp
    have hw : ∀ x ∈ w, ¬ isPySpace x = true := by
      intro x hx
      rw [hsp w (List.mem_cons_self w ws) x hx]
      simp
    cases ws with
    | nil =>
      rw [pyJoin_single]
      unfold splitWs
      rw [List.splitOnP_eq_single isPySpace w hw]
      rw [List.filter_cons_of_pos (by
        simpa using hne w (List.mem_cons_self w []))]
      rfl
    | cons w2 ws2 =>
      rw [pyJoin_cons [' '] w (w2 :: ws2) (by simp)]
      unfold splitWs
      rw [show w ++ [' '] ++ pyJoin [' '] (w2 :: ws2)
            = w ++ ' ' :: pyJoin [' '] (w2 :: ws2) by simp]
      rw [List.splitOnP_first isPySpace w hw ' ' (by decide) (pyJoin [' '] (w2 :: ws2))]
      rw [List.filter_cons_of_pos (by
        simpa using hne w (List.mem_cons_self w (w2 :: ws2)))]
      have ihr := ih (fun x hx => hne x (List.mem_cons_of_mem w hx))
        (fun x hx => hsp x (List.mem_cons_of_mem w hx))
      unfold splitWs at ihr
      rw [ihr]

/-- The words of a chunk produced by `chunk_text_pos`: each chunk splits
back into exactly the words of its slice. -/
theorem splitWs_chunk (text : PyStr) (m : Nat) (hm : m ≠ 0) :
    ∀ g ∈ chunksOf m (splitWs text), splitWs (pyJoin [' '] g) = g := by
  intro g hg
  obtain ⟨-, -, hsub⟩ := mem_chunksOf m hm (splitWs text) g hg
  refine splitWs_pyJoin g ?_ ?_
  · exact fun w hw => (mem_splitWs text w (hsub w hw)).1
  · exact fun w hw => (mem_splitWs text w (hsub w hw)).2

theorem dropLast_map {α β : Type} (f : α → β) :
    ∀ l : List α, (l.map f).dropLast = l.dropLast.map f := by
  intro l
  induction l with
  | nil => rfl
  | cons a l ih =>
    cases l with
    | nil => rfl
    | cons b l' =>
      rw [List.map_cons, List.map_cons,
          show ((f a :: f b :: List.map f l').dropLast = f a :: (f b :: List.map f l').dropLast)
            from rfl,
          show ((a :: b :: l').dropLast = a :: (b :: l').dropLast) from rfl,
          List.map_cons, ← List.map_cons f b l', ih]

theorem pyJoin_ne_nil (s : PyStr) (g : List PyStr) (hg : g ≠ [])
    (hw : ∀ w ∈ g, w ≠ []) : pyJoin s g ≠ [] := by
  cases g with
  | nil => exact absurd rfl hg
  | cons w ws =>
    cases ws with
    | nil => exact hw w (List.mem_cons_self w [])
    | cons w2 ws2 =>
      rw [pyJoin_cons s w (w2 :: ws2) (by simp)]
      have : w ≠ [] := hw w (List.mem_cons_self w _)
      simp [this]

/-! ## Claims about the Text Chunker -/

/-- C1: for every non-empty input text and every `max_words > 0`,
`chunk_text` succeeds, its chunks re-joined with a single space reproduce
the whitespace-normalized word sequence of the input (the space-join of
`text.split()`), and no returned chunk contains more than `max_words`
words. -/
theorem chunk_text_rejoin (text : PyStr) (m : Int) (hm : 0 < m) (_htext : text ≠ []) :
    chunk_text text m = .ok (chunk_text_pos text m.toNat) ∧
    pyJoin [' '] (chunk_text_pos text m.toNat) = pyJoin [' '] (splitWs text) ∧
    ∀ c ∈ chunk_text_pos text m.toNat, (splitWs c).length ≤ m.toNat := by
  have hm0 : m.toNat ≠ 0 := by omega
  refine ⟨?_, ?_, ?_⟩
  · unfold chunk_text
    rw [if_neg (by omega), if_neg (by omega)]
  · exact pyJoin_map_chunksOf [' '] m.toNat hm0 (splitWs text)
  · intro c hc
    obtain ⟨g, hg, rfl⟩ := List.mem_map.mp hc
    rw [splitWs_chunk text m.toNat hm0 g hg]
    exact (mem_chunksOf m.toNat hm0 (splitWs text) g hg).2.1

/-- Witness for C1 at `text = "alpha beta gamma"`, `max_words = 2`. -/
theorem chunk_text_rejoin_witness :
    chunk_text (lit "alpha beta gamma") 2 = .ok (chunk_text_pos (lit "alpha beta gamma") (2 : Int).toNat) ∧
    pyJoin [' '] (chunk_text_pos (lit "alpha beta gamma") (2 : Int).toNat) =
      pyJoin [' '] (splitWs (lit "alpha beta gamma")) ∧
    ∀ c ∈ chunk_text_pos (lit "alpha beta gamma") (2 : Int).toNat,
      (splitWs c).length ≤ (2 : Int).toNat :=
  chunk_text_rejoin (lit "alpha beta gamma") 2 (by decide) (by decide)

/-- C10: for every input text and `max_words ≥ 1`, every chunk except
possibly the last contains exactly `max_words` words, and no chunk is the
empty string. -/
theorem chunk_text_chunk_sizes (text : PyStr) (m : Int) (hm : 1 ≤ m) :
    chunk_text text m = .ok (chunk_text_pos text m.toNat) ∧
    (∀ c ∈ (chunk_text_pos text m.toNat).dropLast, (splitWs c).length = m.toNat) ∧
    ∀ c ∈ chunk_text_pos text m.toNat, c ≠ [] := by
  have hm0 : m.toNat ≠ 0 := by omega
  refine ⟨?_, ?_, ?_⟩
  · unfold chunk_text
    rw [if_neg (by omega), if_neg (by omega)]
  · intro c hc
    rw [show (chunk_text_pos text m.toNat).dropLast
          = ((chunksOf m.toNat (splitWs text)).dropLast).map (pyJoin [' '])
        from dropLast_map (pyJoin [' ']) _] at hc
    obtain ⟨g, hg, rfl⟩ := List.mem_map.mp hc
    rw [splitWs_chunk text m.toNat hm0 g (List.mem_of_mem_dropLast hg)]
    exact mem_dropLast_chunksOf m.toNat hm0 (splitWs text) g hg
  · intro c hc
    obtain ⟨g, hg, rfl⟩ := List.mem_map.mp hc
    obtain ⟨hgne, -, hsub⟩ := mem_chunksOf m.toNat hm0 (splitWs text) g hg
    exact pyJoin_ne_nil [' '] g hgne (fun w hw => (mem_splitWs text w (hsub w hw)).1)

/-- Witness for C10 at `text = "  one two  three "`, `max_words = 2`. -/
theorem chunk_text_chunk_sizes_witness :
    chunk_text (lit "  one two  three ") 2 = .ok (chunk_text_pos (lit "  one two  three ") (2 : Int).toNat) ∧
    (∀ c ∈ (chunk_text_pos (lit "  one two  three ") (2 : Int).toNat).dropLast,
      (splitWs c).length = (2 : Int).toNat) ∧
    ∀ c ∈ chunk_text_pos (lit "  one two  three ") (2 : Int).toNat, c ≠ [] :=
  chunk_text_chunk_sizes (lit "  one two  three ") 2 (by decide)

/-- Counterexample to C6 as stated: a negative `max_words` is NOT rejected —
`range(0, len(words), -1)` is empty, so `chunk_text` returns the empty
list instead of raising. -/
theorem chunk_text_neg_not_rejected : chunk_text (lit "alpha beta") (-1) = .ok [] := by
  decide

/-- C6 amended: `max_words = 0` raises (Python `ValueError` from the zero
`range` step) and is the Chunker's only failure mode; a negative
`max_words` is not rejected and yields the empty chunk list; every
positive `max_words` succeeds. -/
theorem chunk_text_failure_modes (text : PyStr) (m : Int) :
    chunk_text text 0 = .error .valueError ∧
    (m < 0 → chunk_text text m = .ok []) ∧
    (0 < m → chunk_text text m = .ok (chunk_text_pos text m.toNat)) := by
  refine ⟨rfl, ?_, ?_⟩
  · intro h
    unfold chunk_text
    rw [if_neg (by omega), if_pos h]
  · intro h
    unfold chunk_text
    rw [if_neg (by omega), if_neg (by omega)]

/-- Witness for the amended C6 at `text = "word"`, `max_words = -1` and `0`. -/
theorem chunk_text_failure_modes_witness :
    chunk_text (lit "word") (-1) = .ok [] ∧ chunk_text (lit "word") 0 = .error .valueError :=
  ⟨(chunk_text_failure_modes (lit "word") (-1)).2.1 (by decide),
   (chunk_text_failure_modes (lit "word") (-1)).1⟩

/-! ## Lemmas about the Gemini pipelines -/

/-- A Gateway call whose first transport attempt succeeds makes exactly
one attempt and returns that response — in particular, an empty or
whitespace-only response text is returned as-is, never retried. -/
theorem call_gemini_first_ok (attempts : Nat → Except Unit RespText) (t : RespText)
    (h : attempts 0 = .ok t) : call_gemini attempts = (1, .ok t) := by
  unfold call_gemini
  rw [h]

/-- The map loop under transport-successful calls: one prompt per chunk in
order, partial summaries as `collectFrom`. -/
theorem mapPhase_ok (oracle : Nat → Nat → Except Unit RespText) (resp : Nat → RespText)
    (h : ∀ i, oracle i 0 = .ok (resp i)) :
    ∀ (cs : List PyStr) (k : Nat),
      mapPhase oracle cs k = .ok (cs.map mapPrompt, collectFrom resp k cs.length) := by
  intro cs
  induction cs with
  | nil => intro k; rfl
  | cons c cs ih =>
    intro k
    simp only [mapPhase]
    rw [call_gemini_first_ok (oracle k) (resp k) (h k), ih (k + 1)]
    rfl

/-- Full characterization of `generate_summary` on a run whose Gateway
calls all succeed at the transport level with responses `resp`. -/
theorem generate_summary_run (oracle : Nat → Nat → Except Unit RespText)
    (resp : Nat → RespText) (h : ∀ i, oracle i 0 = .ok (resp i)) (text length : PyStr) :
    generate_summary oracle text length =
      (if (chunk_text_pos text ((chunk_configs length).getD mediumConfig).max_words).length = 1 then
        .ok ([gsPrompt1 ((chunk_configs length).getD mediumConfig)
               ((chunk_text_pos text ((chunk_configs length).getD mediumConfig).max_words).headD [])],
             pyStrip (orEmpty (resp 0)))
      else
        match final_instructions length with
        | none => .error (.keyError length)
        | some instr =>
          .ok ((chunk_text_pos text ((chunk_configs length).getD mediumConfig).max_words).map mapPrompt
                ++ [instr ++ lit ":\n\n" ++ pyJoin (lit "\n\n")
                      (collectFrom resp 0
                        (chunk_text_pos text ((chunk_configs length).getD mediumConfig).max_words).length)],
               pyStrip (orEmpty
                 (resp (chunk_text_pos text ((chunk_configs length).getD mediumConfig).max_words).length)))) := by
  unfold generate_summary
  by_cases h1 : (chunk_text_pos text ((chunk_configs length).getD mediumConfig).max_words).length = 1
  · rw [if_pos h1, if_pos h1, call_gemini_first_ok (oracle 0) (resp 0) (h 0)]
  · rw [if_neg h1, if_neg h1, mapPhase_ok oracle resp h _ 0]
    cases final_instructions length with
    | none => rfl
    | some instr =>
      rw [call_gemini_first_ok (oracle _) (resp _) (h _)]

/-- `chunksOf m` on `m + 1` copies of a word: a full slice and a remainder
of one. -/
theorem chunksOf_replicate_succ (m : Nat) (hm : m ≠ 0) (w : PyStr) :
    chunksOf m (List.replicate (m + 1) w) = [List.replicate m w, [w]] := by
  rw [chunksOf_cons m hm _ (by simp), List.take_replicate, List.drop_replicate,
      min_eq_left (by omega), show m + 1 - m = 1 by omega,
      chunksOf_cons m hm _ (by simp), List.take_replicate, List.drop_replicate,
      Nat.min_eq_right (by omega), show 1 - m = 0 by omega]
  rw [List.replicate_one]
  rfl

/-- `chunk_text` on a text of `m + 1` copies of a (nonempty, space-free)
word, with chunk size `m`: a full chunk of `m` words and a final chunk of
one word. -/
theorem chunk_text_pos_word_replicate (m : Nat) (hm : m ≠ 0) (w : PyStr)
    (hw : w ≠ []) (hsp : ∀ c ∈ w, isPySpace c = false) :
    chunk_text_pos (pyJoin [' '] (List.replicate (m + 1) w)) m
      = [pyJoin [' '] (List.replicate m w), w] := by
  unfold chunk_text_pos
  rw [splitWs_pyJoin (List.replicate (m + 1) w)
        (fun x hx => by rw [List.eq_of_mem_replicate hx]; exact hw)
        (fun x hx => by rw [List.eq_of_mem_replicate hx]; exact hsp),
      chunksOf_replicate_succ m hm w]
  rw [List.map_cons, List.map_cons, List.map_nil, pyJoin_single]

/-- Length of a `sep`-join of `n ≥ 1` copies of a word. -/
theorem pyJoin_replicate_length (s w : PyStr) :
    ∀ n : Nat, n ≠ 0 →
      (pyJoin s (List.replicate n w)).length = n * w.length + (n - 1) * s.length := by
  intro n
  induction n with
  | zero => intro h; exact absurd rfl h
  | succ n ih =>
    intro _hn
    cases n with
    | zero => rw [List.replicate_one, pyJoin_single]; ring
    | succ k =>
      rw [List.replicate_succ w (k + 1), pyJoin_cons s w _ (by simp),
          List.length_append, List.length_append, ih (by omega)]
      simp only [Nat.add_sub_cancel]
      ring

/-! ## Claims about the Summarization Pipeline -/

/-- C3: for a recognized length selector and transport-successful Gateway
calls: a single chunk yields exactly one Gateway call; otherwise the
pipeline issues one map call per chunk (prompts in chunk order) plus one
combine call whose prompt joins the partial summaries in original chunk
order (`collectFrom resp 0 N`), for `N + 1` calls in total. -/
theorem generate_summary_call_counts (text length : PyStr) (cfg : Config) (instr : PyStr)
    (resp : Nat → RespText) (oracle : Nat → Nat → Except Unit RespText)
    (hc : chunk_configs length = some cfg)
    (hf : final_instructions length = some instr)
    (ho : ∀ i, oracle i 0 = .ok (resp i)) :
    ((chunk_text_pos text cfg.max_words).length = 1 →
       generate_summary oracle text length =
         .ok ([gsPrompt1 cfg ((chunk_text_pos text cfg.max_words).headD [])],
              pyStrip (orEmpty (resp 0)))) ∧
    ((chunk_text_pos text cfg.max_words).length ≠ 1 →
       generate_summary oracle text length =
         .ok ((chunk_text_pos text cfg.max_words).map mapPrompt ++
                [instr ++ lit ":\n\n" ++
                  pyJoin (lit "\n\n") (collectFrom resp 0 (chunk_text_pos text cfg.max_words).length)],
              pyStrip (orEmpty (resp (chunk_text_pos text cfg.max_words).length)))) ∧
    (∀ prompts result, generate_summary oracle text length = .ok (prompts, result) →
       prompts.length = if (chunk_text_pos text cfg.max_words).length = 1 then 1
                        else (chunk_text_pos text cfg.max_words).length + 1) := by
  have hrun := generate_summary_run oracle resp ho text length
  rw [hc] at hrun
  simp only [Option.getD_some] at hrun
  rw [hf] at hrun
  refine ⟨?_, ?_, ?_⟩
  · intro h1
    rw [hrun, if_pos h1]
  · intro h1
    rw [hrun, if_neg h1]
  · intro prompts result hok
    rw [hrun] at hok
    by_cases h1 : (chunk_text_pos text cfg.max_words).length = 1
    · rw [if_pos h1] at hok
      rw [if_pos h1]
      cases hok
      rfl
    · rw [if_neg h1] at hok
      rw [if_neg h1]
      cases hok
      rw [List.length_append, List.length_map, List.length_cons, List.length_nil]

/-- Witness for C3: a one-chunk document with `length = "long"` issues
exactly one Gateway call. -/
theorem generate_summary_call_counts_witness :
    generate_summary (fun _ _ => .ok (some (lit "S"))) (lit "tiny doc") (lit "long")
      = .ok ([gsPrompt1 ⟨1000, lit "Write a detailed 2–3 paragraph summary"⟩
               ((chunk_text_pos (lit "tiny doc") 1000).headD [])],
             pyStrip (orEmpty (some (lit "S")))) :=
  (generate_summary_call_counts (lit "tiny doc") (lit "long")
      ⟨1000, lit "Write a detailed 2–3 paragraph summary"⟩
      (lit "Combine these section summaries into a detailed 3–4 paragraph summary covering all key points")
      (fun _ => some (lit "S")) (fun _ _ => .ok (some (lit "S")))
      (by decide) (by decide) (fun _ => rfl)).1 (by decide)

/-- C2 (code bug): on a document long enough to form two chunks, an
unrecognized length selector falls back to `medium` for the chunking
config but then raises `KeyError` at `final_instructions[length]`, instead
of behaving identically to `"medium"` (which succeeds on the same run). -/
theorem generate_summary_unrecognized_raises :
    chunk_configs (lit "brief") = none ∧
    generate_summary (fun _ _ => .ok (some (lit "S")))
        (pyJoin [' '] (List.replicate 1201 (lit "a"))) (lit "brief")
      = .error (.keyError (lit "brief")) ∧
    (generate_summary (fun _ _ => .ok (some (lit "S")))
        (pyJoin [' '] (List.replicate 1201 (lit "a"))) (lit "medium")).isOk = true := by
  have hchunks : chunk_text_pos (pyJoin [' '] (List.replicate 1201 (lit "a"))) 1200
      = [pyJoin [' '] (List.replicate 1200 (lit "a")), lit "a"] :=
    chunk_text_pos_word_replicate 1200 (by omega) (lit "a") (by decide) (by decide)
  refine ⟨by decide, ?_, ?_⟩
  · have hrun := generate_summary_run (fun _ _ => .ok (some (lit "S")))
      (fun _ => some (lit "S")) (fun _ => rfl)
      (pyJoin [' '] (List.replicate 1201 (lit "a"))) (lit "brief")
    rw [show (chunk_configs (lit "brief")).getD mediumConfig = mediumConfig from rfl] at hrun
    rw [show mediumConfig.max_words = 1200 from rfl, hchunks] at hrun
    rw [hrun]
    rfl
  · have hrun := generate_summary_run (fun _ _ => .ok (some (lit "S")))
      (fun _ => some (lit "S")) (fun _ => rfl)
      (pyJoin [' '] (List.replicate 1201 (lit "a"))) (lit "medium")
    rw [show (chunk_configs (lit "medium")).getD mediumConfig = mediumConfig from rfl] at hrun
    rw [show mediumConfig.max_words = 1200 from rfl, hchunks] at hrun
    rw [hrun]
    rfl

/-- Counterexample to C5 as stated: an empty generation is returned as a
normal value (the empty-string summary), not surfaced as an error — no
`EmptyGeneration` failure exists in the code. -/
theorem generate_summary_empty_is_returned :
    generate_summary (fun _ _ => .ok (some [])) (lit "hello") (lit "medium")
      = .ok ([gsPrompt1 mediumConfig (lit "hello")], []) := by
  decide

/-- C5 amended: an empty or whitespace-only generation is never retried (a
transport-successful Gateway call makes exactly one attempt whatever its
text), and a summarization run whose responses are all empty — in
particular its final combine response — returns the empty string as a
normal value instead of failing. -/
theorem empty_generation_not_retried :
    (∀ t : RespText, call_gemini (fun _ => .ok t) = (1, .ok t)) ∧
    (∀ (text length : PyStr) (oracle : Nat → Nat → Except Unit RespText),
      (length = lit "short" ∨ length = lit "medium" ∨ length = lit "long") →
      (∀ i a, oracle i a = .ok (some [])) →
      ∃ prompts, generate_summary oracle text length = .ok (prompts, [])) := by
  constructor
  · intro t
    exact call_gemini_first_ok _ t rfl
  · intro text length oracle hlen hresp
    have hrun := generate_summary_run oracle (fun _ => some []) (fun i => hresp i 0) text length
    have hfi : ∃ instr, final_instructions length = some instr := by
      rcases hlen with h | h | h <;> rw [h] <;> exact ⟨_, rfl⟩
    obtain ⟨instr, hfi⟩ := hfi
    rw [hfi] at hrun
    by_cases h1 : (chunk_text_pos text ((chunk_configs length).getD mediumConfig).max_words).length = 1
    · rw [if_pos h1] at hrun
      exact ⟨_, hrun⟩
    · rw [if_neg h1] at hrun
      exact ⟨_, hrun⟩

/-- Witness for the amended C5: one attempt on a whitespace-only response;
an all-empty-response run returns the empty summary normally. -/
theorem empty_generation_not_retried_witness :
    call_gemini (fun _ => .ok (some (lit " "))) = (1, .ok (some (lit " "))) ∧
    ∃ prompts, generate_summary (fun _ _ => .ok (some [])) (lit "doc text") (lit "short")
      = .ok (prompts, []) :=
  ⟨empty_generation_not_retried.1 (some (lit " ")),
   empty_generation_not_retried.2 (lit "doc text") (lit "short") (fun _ _ => .ok (some []))
     (Or.inl rfl) (fun _ _ => rfl)⟩

/-! ## Claims about the QA Pipeline -/

/-- Characterization of `answer_question` on a run whose single Gateway
call succeeds at the transport level with response `t`. -/
theorem answer_question_run (oracle : Nat → Nat → Except Unit RespText) (t : RespText)
    (h0 : oracle 0 0 = .ok t) (document_text question : PyStr) :
    answer_question oracle document_text question =
      .ok ([qaPrompt (if (chunk_text_pos document_text 1000).length = 1
                      then (chunk_text_pos document_text 1000).headD []
                      else qaRelevant (chunk_text_pos document_text 1000)) question],
           pyStrip (orEmpty t)) := by
  unfold answer_question
  by_cases h1 : (chunk_text_pos document_text 1000).length = 1
  · rw [if_pos h1, call_gemini_first_ok (oracle 0) t h0, if_pos h1]
  · rw [if_neg h1, call_gemini_first_ok (oracle 0) t h0, if_neg h1]

/-- C4 amended: the QA pipeline always issues exactly one Gateway call —
with the single chunk as context when at most one chunk results, and
otherwise with the `qaRelevant` context built from only the first three
chunks, which is at most 4001 characters long (the first 4000 characters
of the concatenation plus a one-character ellipsis when truncated). -/
theorem answer_question_calls (document_text question : PyStr) (t : RespText)
    (oracle : Nat → Nat → Except Unit RespText) (h0 : oracle 0 0 = .ok t) :
    answer_question oracle document_text question =
      .ok ([qaPrompt (if (chunk_text_pos document_text 1000).length = 1
                      then (chunk_text_pos document_text 1000).headD []
                      else qaRelevant (chunk_text_pos document_text 1000)) question],
           pyStrip (orEmpty t)) ∧
    (qaRelevant (chunk_text_pos document_text 1000)).length ≤ 4001 ∧
    qaRelevant (chunk_text_pos document_text 1000) =
      qaRelevant ((chunk_text_pos document_text 1000).take 3) := by
  refine ⟨answer_question_run oracle t h0 document_text question, ?_, ?_⟩
  · unfold qaRelevant
    by_cases h4 : 4000 < (pyJoin (lit "\n\n") ((chunk_text_pos document_text 1000).take 3)).length
    · rw [if_pos h4, List.length_append, List.length_take]
      have : (lit "…").length = 1 := by decide
      rw [this]
      omega
    · rw [if_neg h4]
      omega
  · unfold qaRelevant
    rw [List.take_take]
    rfl

/-- Witness for the amended C4 at a one-chunk document. -/
theorem answer_question_calls_witness :
    answer_question (fun _ _ => .ok (some (lit "yes"))) (lit "short document") (lit "why?")
      = .ok ([qaPrompt (if (chunk_text_pos (lit "short document") 1000).length = 1
                        then (chunk_text_pos (lit "short document") 1000).headD []
                        else qaRelevant (chunk_text_pos (lit "short document") 1000)) (lit "why?")],
             pyStrip (orEmpty (some (lit "yes")))) ∧
    (qaRelevant (chunk_text_pos (lit "short document") 1000)).length ≤ 4001 ∧
    qaRelevant (chunk_text_pos (lit "short document") 1000) =
      qaRelevant ((chunk_text_pos (lit "short document") 1000).take 3) :=
  answer_question_calls (lit "short document") (lit "why?") (some (lit "yes"))
    (fun _ _ => .ok (some (lit "yes"))) rfl

/-- Counterexample to C4 as stated: on a 1001-word document of three-letter
words the two 1000-word chunks join to 4004 characters, so the context
placed in the Gateway prompt is truncated to 4000 characters PLUS an
ellipsis — 4001 characters, exceeding the claimed 4000 bound. -/
theorem answer_question_context_overflow :
    1 < (chunk_text_pos (pyJoin [' '] (List.replicate 1001 (lit "aaa"))) 1000).length ∧
    (qaRelevant (chunk_text_pos (pyJoin [' '] (List.replicate 1001 (lit "aaa"))) 1000)).length = 4001 ∧
    answer_question (fun _ _ => .ok (some (lit "A")))
        (pyJoin [' '] (List.replicate 1001 (lit "aaa"))) (lit "q")
      = .ok ([qaPrompt
                (qaRelevant (chunk_text_pos (pyJoin [' '] (List.replicate 1001 (lit "aaa"))) 1000))
                (lit "q")],
             lit "A") := by
  have hchunks : chunk_text_pos (pyJoin [' '] (List.replicate 1001 (lit "aaa"))) 1000
      = [pyJoin [' '] (List.replicate 1000 (lit "aaa")), lit "aaa"] :=
    chunk_text_pos_word_replicate 1000 (by omega) (lit "aaa") (by decide) (by decide)
  have hlen1 : (pyJoin [' '] (List.replicate 1000 (lit "aaa"))).length = 3999 := by
    rw [pyJoin_replicate_length [' '] (lit "aaa") 1000 (by omega)]
    rfl
  have hjoin : pyJoin (lit "\n\n") [pyJoin [' '] (List.replicate 1000 (lit "aaa")), lit "aaa"]
      = pyJoin [' '] (List.replicate 1000 (lit "aaa")) ++ lit "\n\n" ++ lit "aaa" :=
    pyJoin_cons (lit "\n\n") _ [lit "aaa"] (by simp)
  have hjl : (pyJoin (lit "\n\n") [pyJoin [' '] (List.replicate 1000 (lit "aaa")), lit "aaa"]).length
      = 4004 := by
    rw [hjoin, List.length_append, List.length_append, hlen1]
    rfl
  have hrel : (qaRelevant (chunk_text_pos (pyJoin [' '] (List.replicate 1001 (lit "aaa"))) 1000)).length
      = 4001 := by
    rw [hchunks]
    unfold qaRelevant
    rw [show ([pyJoin [' '] (List.replicate 1000 (lit "aaa")), lit "aaa"].take 3)
          = [pyJoin [' '] (List.replicate 1000 (lit "aaa")), lit "aaa"] from rfl]
    rw [if_pos (by rw [hjl]; omega), List.length_append, List.length_take, hjl]
    rfl
  refine ⟨by rw [hchunks]; decide, hrel, ?_⟩
  have h := answer_question_run (fun _ _ => .ok (some (lit "A"))) (some (lit "A")) rfl
    (pyJoin [' '] (List.replicate 1001 (lit "aaa"))) (lit "q")
  rw [if_neg (by rw [hchunks]; decide)] at h
  rw [h]
  rfl

/-! ## Claims about the Document Store -/

/-- C7: `delete_document` returns `False` (with the state unchanged, no
error) both when no document with the identifier exists and when it exists
under a different owner — the two cases produce the identical result — and
it deletes (returns `True`) only when the supplied owner matches the
document's recorded owner. -/
theorem delete_document_owner_scope (failures : Nat → Bool) (s : DBState)
    (document_id : Nat) (user_id : String) (hconn : failures 0 = false) :
    ((∀ d ∈ s.docs, d.id ≠ document_id) →
       delete_document failures s document_id user_id = (1, false, s)) ∧
    ((∀ d ∈ s.docs, d.id = document_id → d.user_id ≠ user_id) →
       delete_document failures s document_id user_id = (1, false, s)) ∧
    ((delete_document failures s document_id user_id).2.1 = true →
       ∃ d ∈ s.docs, d.id = document_id ∧ d.user_id = user_id) := by
  unfold delete_document
  rw [hconn]
  simp only [Bool.false_eq_true, if_false]
  by_cases hany : s.docs.any (fun d => d.id = document_id ∧ d.user_id = user_id) = true
  · have ⟨d, hd, hdp⟩ := List.any_eq_true.mp hany
    simp only [decide_eq_true_eq] at hdp
    refine ⟨?_, ?_, ?_⟩
    · intro hnone
      exact absurd hdp.1 (hnone d hd)
    · intro hother
      exact absurd hdp.2 (hother d hd hdp.1)
    · intro _
      exact ⟨d, hd, hdp⟩
  · rw [if_neg hany]
    exact ⟨fun _ => rfl, fun _ => rfl, fun hc => absurd hc (by simp)⟩

/-- Witness for C7: a store holding document 1 owned by `"alice"`; deleting
it as `"mallory"` and deleting the absent id 2 both return `(1, false, s)`. -/
theorem delete_document_owner_scope_witness :
    delete_document (fun _ => false)
        ⟨[⟨1, "alice", "f.pdf", "text", "sum", 10, 0⟩], [], 2, 1, 1⟩ 1 "mallory"
      = (1, false, ⟨[⟨1, "alice", "f.pdf", "text", "sum", 10, 0⟩], [], 2, 1, 1⟩) ∧
    delete_document (fun _ => false)
        ⟨[⟨1, "alice", "f.pdf", "text", "sum", 10, 0⟩], [], 2, 1, 1⟩ 2 "alice"
      = (1, false, ⟨[⟨1, "alice", "f.pdf", "text", "sum", 10, 0⟩], [], 2, 1, 1⟩) :=
  ⟨(delete_document_owner_scope (fun _ => false)
      ⟨[⟨1, "alice", "f.pdf", "text", "sum", 10, 0⟩], [], 2, 1, 1⟩ 1 "mallory" rfl).2.1
      (by decide),
   (delete_document_owner_scope (fun _ => false)
      ⟨[⟨1, "alice", "f.pdf", "text", "sum", 10, 0⟩], [], 2, 1, 1⟩ 2 "alice" rfl).1
      (by decide)⟩

/-- C8: whenever `delete_document` returns `True`, no `qa_interactions`
row referencing the deleted document remains in the resulting state (the
deletion cascades, leaving no orphaned rows). -/
theorem delete_document_cascade (failures : Nat → Bool) (s : DBState)
    (document_id : Nat) (user_id : String) :
    (delete_document failures s document_id user_id).2.1 = true →
      ∀ q ∈ (delete_document failures s document_id user_id).2.2.qas,
        q.document_id ≠ document_id := by
  unfold delete_document
  by_cases hf : failures 0
  · rw [if_pos hf]
    intro hc
    exact absurd hc (by simp)
  · rw [if_neg hf]
    by_cases hany : s.docs.any (fun d => d.id = document_id ∧ d.user_id = user_id) = true
    · rw [if_pos hany]
      intro _ q hq
      have := (List.mem_filter.mp hq).2
      simpa using this
    · rw [if_neg hany]
      intro hc
      exact absurd hc (by simp)

/-- Witness for C8: deleting document 1 removes both of its Q&A rows and
leaves the row of document 2 untouched. -/
theorem delete_document_cascade_witness :
    (delete_document (fun _ => false)
        ⟨[⟨1, "u", "f", "c", "s", 3, 0⟩, ⟨2, "u", "g", "c", "s", 4, 1⟩],
         [⟨1, 1, "q1", "a1", 2⟩, ⟨2, 2, "q2", "a2", 3⟩, ⟨3, 1, "q3", "a3", 4⟩], 3, 4, 5⟩
        1 "u").2.1 = true ∧
    ∀ q ∈ (delete_document (fun _ => false)
        ⟨[⟨1, "u", "f", "c", "s", 3, 0⟩, ⟨2, "u", "g", "c", "s", 4, 1⟩],
         [⟨1, 1, "q1", "a1", 2⟩, ⟨2, 2, "q2", "a2", 3⟩, ⟨3, 1, "q3", "a3", 4⟩], 3, 4, 5⟩
        1 "u").2.2.qas, q.document_id ≠ 1 :=
  ⟨by decide,
   delete_document_cascade (fun _ => false)
    ⟨[⟨1, "u", "f", "c", "s", 3, 0⟩, ⟨2, "u", "g", "c", "s", 4, 1⟩],
     [⟨1, 1, "q1", "a1", 2⟩, ⟨2, 2, "q2", "a2", 3⟩, ⟨3, 1, "q3", "a3", 4⟩], 3, 4, 5⟩
    1 "u" (by decide)⟩

/-- Counterexample to C9 as stated: with connectivity that fails only on
the very first attempt (so that a 3-attempt retry policy would succeed, as
`tryAttempts` shows), `save_qa_interaction` surfaces the error after
exactly one attempt and `delete_document` swallows the failure after
exactly one attempt — neither retries. -/
theorem store_retry_not_uniform :
    save_qa_interaction (fun n => n == 0) DBState.empty 1 "q" "a" = (1, .error ()) ∧
    delete_document (fun n => n == 0)
        ⟨[⟨1, "u", "f", "c", "s", 0, 0⟩], [], 2, 1, 1⟩ 1 "u"
      = (1, false, ⟨[⟨1, "u", "f", "c", "s", 0, 0⟩], [], 2, 1, 1⟩) ∧
    tryAttempts (fun n => n == 0) 0 3 = (2, true) := by
  decide

/-- C9 amended: only document creation (`save_document`, like the user
upsert) retries, up to 3 attempts, before surfacing the storage error; the
other operations make exactly one attempt — `save_qa_interaction` surfaces
the failure immediately, `get_user_documents` returns the empty list, and
`delete_document` returns `False` with the state unchanged. -/
theorem store_retry_policy (failures : Nat → Bool) (s : DBState)
    (user_id filename content summary question answer : String)
    (file_size document_id : Nat) :
    ((save_document failures s user_id filename content summary file_size).1 ≤ 3 ∧
      ((save_document failures s user_id filename content summary file_size).2.isOk = false ↔
        (failures 0 = true ∧ failures 1 = true ∧ failures 2 = true))) ∧
    ((save_qa_interaction failures s document_id question answer).1 = 1 ∧
      ((save_qa_interaction failures s document_id question answer).2.isOk = false ↔
        failures 0 = true)) ∧
    ((delete_document failures s document_id user_id).1 = 1 ∧
      (failures 0 = true → delete_document failures s document_id user_id = (1, false, s))) ∧
    ((get_user_documents failures s user_id).1 = 1 ∧
      (failures 0 = true → get_user_documents failures s user_id = (1, []))) := by
  refine ⟨?_, ?_, ?_, ?_⟩
  · have step : tryAttempts failures 0 3
        = if failures 0 then
            (if failures 1 then (if failures 2 then (3, false) else (3, true)) else (2, true))
          else (1, true) := by
      rw [show tryAttempts failures 0 3 = if failures 0 then tryAttempts failures 1 2 else (1, true) from rfl]
      rw [show tryAttempts failures 1 2 = if failures 1 then tryAttempts failures 2 1 else (2, true) from rfl]
      rw [show tryAttempts failures 2 1 = if failures 2 then tryAttempts failures 3 0 else (3, true) from rfl]
      rw [show tryAttempts failures 3 0 = (3, false) from rfl]
    unfold save_document
    rw [step]
    by_cases h0 : failures 0 <;> by_cases h1 : failures 1 <;> by_cases h2 : failures 2 <;>
      simp [h0, h1, h2, Except.isOk, Except.toBool]
  · unfold save_qa_interaction
    by_cases h0 : failures 0 <;> simp [h0, Except.isOk, Except.toBool]
  · unfold delete_document
    by_cases h0 : failures 0
    · rw [if_pos h0]
      exact ⟨rfl, fun _ => rfl⟩
    · rw [if_neg h0]
      refine ⟨?_, fun hc => absurd hc (by simp [h0])⟩
      by_cases hany : s.docs.any (fun d => d.id = document_id ∧ d.user_id = user_id) = true
      · rw [if_pos hany]
      · rw [if_neg hany]
  · unfold get_user_documents
    by_cases h0 : failures 0
    · rw [if_pos h0]
      exact ⟨rfl, fun _ => rfl⟩
    · rw [if_neg h0]
      exact ⟨rfl, fun hc => absurd hc (by simp [h0])⟩

/-- Witness for the amended C9 under always-failing connectivity: the
create retries to 3 attempts and errors; the other operations stop after
one attempt. -/
theorem store_retry_policy_witness :
    (save_document (fun _ => true) DBState.empty "u" "f" "c" "s" 9).1 = 3 ∧
    (save_document (fun _ => true) DBState.empty "u" "f" "c" "s" 9).2.isOk = false ∧
    save_qa_interaction (fun _ => true) DBState.empty 1 "q" "a" = (1, .error ()) ∧
    delete_document (fun _ => true) DBState.empty 1 "u" = (1, false, DBState.empty) ∧
    get_user_documents (fun _ => true) DBState.empty "u" = (1, []) :=
  ⟨by decide,
   (store_retry_policy (fun _ => true) DBState.empty "u" "f" "c" "s" "q" "a" 9 1).1.2.mpr
     ⟨rfl, rfl, rfl⟩,
   by decide,
   (store_retry_policy (fun _ => true) DBState.empty "u" "f" "c" "s" "q" "a" 9 1).2.2.1.2 rfl,
   (store_retry_policy (fun _ => true) DBState.empty "u" "f" "c" "s" "q" "a" 9 1).2.2.2.2 rfl⟩

end IntelliDoc
